import Mathlib

/-!
Verification development for the content-addressable storage (CAS) service
and its Python example client.

The repository ships two example clients. The client embedding below follows
src/examples/python/client.py. The CAS server itself is not part of the
source tree, so the store model is built from the specification text
(section 3, 4 and 5 of the spec): a deduplicating key-value store from
digests to blobs with store, exists, fetch and delete operations.
-/

set_option autoImplicit false

/-! ## Data model -/

/-- Modelled from the spec: a Blob is an immutable sequence of bytes
submitted by a caller (each byte a natural number). -/
abbrev Blob := List Nat

/-- Modelled from the spec: a Digest is a fixed-length identifier computed
deterministically from the bytes of a Blob. The concrete hash (SHA-1) is
abstracted as a function parameter of the operations; the spec treats the
digest as identifying content, which corresponds to injectivity of that
parameter where a theorem needs it. -/
abbrev Digest := List Nat

/-- Modelled from the spec: the persisted association from Digest to Blob
bytes, given as an association list of entries. -/
abbrev Store := List (Digest × Blob)

/-- Modelled from the spec: the error taxonomy of section 7, restricted to
the errors the store operations themselves raise. -/
inductive CasError where
  | NotFound
  | PayloadTooLarge
  | IOError
  | Corrupted
deriving DecidableEq, Repr

/-- Modelled from the spec: delete returns an acknowledgment, not the
deleted bytes. -/
inductive Ack where
  | done
deriving DecidableEq, Repr

/-- Look up the entry stored under a digest, returning its bytes. -/
def findEntry : Store → Digest → Option Blob
  | [], _ => none
  | (d, b) :: rest, d0 => if d = d0 then some b else findEntry rest d0

/-- Remove every entry stored under a digest. -/
def removeEntry : Store → Digest → Store
  | [], _ => []
  | (d, b) :: rest, d0 =>
    if d = d0 then removeEntry rest d0 else (d, b) :: removeEntry rest d0

/-- Number of entries stored under a digest. -/
def countEntries : Store → Digest → Nat
  | [], _ => 0
  | (d, _) :: rest, d0 => (if d = d0 then 1 else 0) + countEntries rest d0

/-- A well-formed store keeps at most one entry per digest (the spec says a
store entry is created once per digest and deduplicated). -/
def StoreWf (s : Store) : Prop := ∀ d, countEntries s d ≤ 1

/-- Every entry of the store re-hashes to the digest it is filed under; the
spec states this as the round-trip integrity invariant. -/
def HashConsistent (h : Blob → Digest) (s : Store) : Prop :=
  ∀ p ∈ s, h p.2 = p.1

/-! ## Operations, in state-passing form

Each operation maps the current store to the next store together with its
result, mirroring the per-digest state machine of spec section 4.1. -/

/-- Modelled from the spec: store(bytes) computes the digest of the bytes,
fails with PayloadTooLarge when the size bound is exceeded, persists the
bytes when no entry exists for the digest, and succeeds without rewriting
when an entry already exists (idempotent dedup). -/
def casStore (h : Blob → Digest) (maxSize : Nat) (s : Store) (b : Blob) :
    Store × Except CasError Digest :=
  if maxSize < b.length then (s, Except.error CasError.PayloadTooLarge)
  else if (findEntry s (h b)).isSome then (s, Except.ok (h b))
  else ((h b, b) :: s, Except.ok (h b))

/-- Modelled from the spec: exists(Digest) returns whether an entry for the
digest is currently present; it is a pure read. -/
def casExists (s : Store) (d : Digest) : Store × Bool :=
  (s, (findEntry s d).isSome)

/-- Modelled from the spec: fetch(Digest) returns the exact bytes stored
under the digest, fails with NotFound when no entry exists, and fails with
Corrupted when the stored bytes no longer re-hash to the digest; it is a
pure read. -/
def casFetch (h : Blob → Digest) (s : Store) (d : Digest) :
    Store × Except CasError Blob :=
  (s,
    match findEntry s d with
    | none => Except.error CasError.NotFound
    | some b =>
      if h b = d then Except.ok b else Except.error CasError.Corrupted)

/-- Modelled from the spec: delete(Digest) removes the entry for the digest
if present and succeeds as a no-op when absent, returning an
acknowledgment. -/
def casDelete (s : Store) (d : Digest) : Store × Except CasError Ack :=
  (removeEntry s d, Except.ok Ack.done)

/-- Modelled from the spec: N concurrent stores of the same bytes. The spec
demands the underlying write be atomic from the point of view of readers,
so a concurrent execution is equivalent to some sequential interleaving;
this runs the N store calls in sequence and collects every result. -/
def storeMany (h : Blob → Digest) (maxSize : Nat) (b : Blob) :
    Nat → Store → Store × List (Except CasError Digest)
  | 0, s => (s, [])
  | n + 1, s =>
    let step := casStore h maxSize s b
    let rest := storeMany h maxSize b n step.1
    (rest.1, step.2 :: rest.2)

/-! ## Client embedding, from src/examples/python/client.py -/

/-- The client configuration, from IOClient.__init__: a base URL and an API
key. -/
structure IOClient where
  base_url : String
  api_key : String

/-- IOClient.__init__ sets self.headers to the single X-API-Key header
carrying the API key. -/
def IOClient.clientHeaders (c : IOClient) : List (String × String) :=
  [("X-API-Key", c.api_key)]

/-- An HTTP request as the client builds it: method, URL and headers. -/
structure HttpRequest where
  method : String
  url : String
  headers : List (String × String)

/-- The request issued by IOClient.store_file: POST {base_url}/api/store
with the client headers. -/
def store_request (c : IOClient) : HttpRequest :=
  { method := "POST", url := c.base_url ++ "/api/store",
    headers := c.clientHeaders }

/-- The request issued by IOClient.get_file: GET {base_url}/api/file/{sha1}
with the client headers. -/
def get_request (c : IOClient) (sha1 : String) : HttpRequest :=
  { method := "GET", url := c.base_url ++ "/api/file/" ++ sha1,
    headers := c.clientHeaders }

/-- The request issued by IOClient.delete_file: DELETE
{base_url}/api/file/{sha1} with the client headers. -/
def delete_request (c : IOClient) (sha1 : String) : HttpRequest :=
  { method := "DELETE", url := c.base_url ++ "/api/file/" ++ sha1,
    headers := c.clientHeaders }

/-- The request issued by IOClient.file_exists: GET
{base_url}/api/exists/{sha1} with the client headers. -/
def exists_request (c : IOClient) (sha1 : String) : HttpRequest :=
  { method := "GET", url := c.base_url ++ "/api/exists/" ++ sha1,
    headers := c.clientHeaders }

/-- The error raised by the requests library for a failing status code. -/
inductive ClientError where
  | httpError (status : Nat)
deriving DecidableEq, Repr

/-- Semantics of requests.Response.raise_for_status: it raises HTTPError
exactly for client-error statuses (400 to 499) and server-error statuses
(500 to 599); any other status passes through silently. -/
def raise_for_status (status : Nat) : Except ClientError Unit :=
  if 400 ≤ status ∧ status < 600 then Except.error (ClientError.httpError status)
  else Except.ok ()

/-- The response consumed by store_file: a status code and the sha1 field
of the JSON body. -/
structure StoreResponse where
  status : Nat
  sha1 : String

/-- IOClient.store_file after the POST: raise_for_status on the response,
then return the sha1 field of the JSON body. -/
def store_file (resp : StoreResponse) : Except ClientError String :=
  match raise_for_status resp.status with
  | Except.error e => Except.error e
  | Except.ok _ => Except.ok resp.sha1

/-- The response consumed by get_file: a status code and the raw body
bytes. -/
structure FileResponse where
  status : Nat
  body : List Nat

/-- Semantics of resp.iter_content(chunk_size): the body split into
successive chunks of at most chunk_size bytes, in order. -/
def iter_content (chunk_size : Nat) : List Nat → List (List Nat)
  | [] => []
  | x :: xs =>
    (x :: xs.take (chunk_size - 1)) :: iter_content chunk_size (xs.drop (chunk_size - 1))
termination_by l => l.length
decreasing_by simp [List.length_drop]; omega

/-- IOClient.get_file after the GET: raise_for_status on the response, then
open the output file in mode wb (starting from empty contents, whatever was
there before) and append each chunk of iter_content with chunk_size 8192.
The result pairs the final file contents with the None return value. -/
def get_file (resp : FileResponse) : Except ClientError (List Nat × Unit) :=
  match raise_for_status resp.status with
  | Except.error e => Except.error e
  | Except.ok _ =>
    Except.ok ((iter_content 8192 resp.body).foldl (fun acc c => acc ++ c) [], ())

/-- The response consumed by delete_file: a status code and the JSON body
it returns verbatim. -/
structure DeleteResponse where
  status : Nat
  json : String

/-- IOClient.delete_file after the DELETE: raise_for_status on the
response, then return the JSON body. -/
def delete_file (resp : DeleteResponse) : Except ClientError String :=
  match raise_for_status resp.status with
  | Except.error e => Except.error e
  | Except.ok _ => Except.ok resp.json

/-- The response consumed by file_exists: a status code and the exists
field of the JSON body. -/
structure ExistsResponse where
  status : Nat
  existsFlag : Bool

/-- IOClient.file_exists after the GET: raise_for_status on the response,
then return the exists field of the JSON body. -/
def file_exists (resp : ExistsResponse) : Except ClientError Bool :=
  match raise_for_status resp.status with
  | Except.error e => Except.error e
  | Except.ok _ => Except.ok resp.existsFlag

/-! ## Helper lemmas -/

theorem findEntry_cons_self (d : Digest) (b : Blob) (s : Store) :
    findEntry ((d, b) :: s) d = some b := by
  simp [findEntry]

theorem countEntries_of_none {s : Store} {d : Digest}
    (h : findEntry s d = none) : countEntries s d = 0 := by
  induction s with
  | nil => rfl
  | cons p rest ih =>
    obtain ⟨d0, b0⟩ := p
    by_cases hd : d0 = d
    · simp [findEntry, hd] at h
    · rw [findEntry] at h
      simp only [hd, if_false] at h
      simp [countEntries, hd, ih h]

theorem one_le_countEntries {s : Store} {d : Digest}
    (h : (findEntry s d).isSome = true) : 1 ≤ countEntries s d := by
  induction s with
  | nil => simp [findEntry] at h
  | cons p rest ih =>
    obtain ⟨d0, b0⟩ := p
    by_cases hd : d0 = d
    · simp [countEntries, hd]
    · rw [findEntry] at h
      simp only [hd, if_false] at h
      have := ih h
      simp [countEntries, hd]
      omega

theorem findEntry_removeEntry (s : Store) (d : Digest) :
    findEntry (removeEntry s d) d = none := by
  induction s with
  | nil => rfl
  | cons p rest ih =>
    obtain ⟨d0, b0⟩ := p
    by_cases hd : d0 = d
    · simp [removeEntry, hd, ih]
    · simp [removeEntry, findEntry, hd, ih]

theorem removeEntry_idem (s : Store) (d : Digest) :
    removeEntry (removeEntry s d) d = removeEntry s d := by
  induction s with
  | nil => rfl
  | cons p rest ih =>
    obtain ⟨d0, b0⟩ := p
    by_cases hd : d0 = d
    · simp [removeEntry, hd, ih]
    · simp [removeEntry, hd, ih]

theorem iter_content_foldl (n : Nat) (l : List Nat) : ∀ acc : List Nat,
    (iter_content n l).foldl (fun a c => a ++ c) acc = acc ++ l := by
  induction l using iter_content.induct n with
  | case1 => simp [iter_content]
  | case2 x xs ih =>
    intro acc
    rw [iter_content]
    simp only [List.foldl_cons]
    rw [ih]
    simp [List.take_append_drop]

theorem iter_content_length_le {n : Nat} (hn : 1 ≤ n) (l : List Nat) :
    ∀ c ∈ iter_content n l, c.length ≤ n := by
  induction l using iter_content.induct n with
  | case1 => simp [iter_content]
  | case2 x xs ih =>
    intro c hc
    rw [iter_content] at hc
    rcases List.mem_cons.mp hc with h1 | h1
    · subst h1
      have := List.length_take_le (n - 1) xs
      simp only [List.length_cons]
      omega
    · exact ih c h1

/-! ## Claim theorems -/

/-- Claim C3: for every digest with no stored entry, exists returns false
and fetch fails with exactly the NotFound error, never with another error
and never with a successful result. -/
theorem c3_absent_digest (h : Blob → Digest) (s : Store) (d : Digest)
    (habs : findEntry s d = none) :
    (casExists s d).2 = false ∧
    (casFetch h s d).2 = Except.error CasError.NotFound := by
  constructor
  · simp [casExists, habs]
  · simp [casFetch, habs]

/-- Witness for C3 at the empty store and digest [0]. -/
theorem c3_witness :
    (casExists [] [0]).2 = false ∧
    (casFetch (fun b => b) [] [0]).2 = Except.error CasError.NotFound :=
  c3_absent_digest (fun b => b) [] [0] rfl

/-- Claim C4: delete followed by delete succeeds both times with an
acknowledgment (not the deleted bytes), after either call exists returns
false, and the second delete is a no-op on the state. -/
theorem c4_delete_idempotent (s : Store) (d : Digest) :
    (casDelete s d).2 = Except.ok Ack.done ∧
    (casDelete (casDelete s d).1 d).2 = Except.ok Ack.done ∧
    (casExists (casDelete s d).1 d).2 = false ∧
    (casExists (casDelete (casDelete s d).1 d).1 d).2 = false ∧
    (casDelete (casDelete s d).1 d).1 = (casDelete s d).1 := by
  refine ⟨rfl, rfl, ?_, ?_, ?_⟩
  · simp [casExists, casDelete, findEntry_removeEntry]
  · simp [casExists, casDelete, removeEntry_idem, findEntry_removeEntry]
  · simp [casDelete, removeEntry_idem]

/-- Claim C7: every request the client issues, for store, fetch, delete and
exists alike, carries the X-API-Key header with the configured API key. -/
theorem c7_api_key_header (c : IOClient) (sha1 : String) :
    ("X-API-Key", c.api_key) ∈ (store_request c).headers ∧
    ("X-API-Key", c.api_key) ∈ (get_request c sha1).headers ∧
    ("X-API-Key", c.api_key) ∈ (delete_request c sha1).headers ∧
    ("X-API-Key", c.api_key) ∈ (exists_request c sha1).headers := by
  refine ⟨?_, ?_, ?_, ?_⟩ <;>
    simp [store_request, get_request, delete_request, exists_request,
      IOClient.clientHeaders]

/-- Claim C8: exists and fetch are pure reads; for every store state and
digest they leave the state, and hence every entry and its bytes,
unchanged. -/
theorem c8_reads_pure (h : Blob → Digest) (s : Store) (d : Digest) :
    (casExists s d).1 = s ∧ (casFetch h s d).1 = s :=
  ⟨rfl, rfl⟩

/-- Claim C9: when the input exceeds the configured maximum size, store
fails with PayloadTooLarge and creates no entry (the state is returned
unchanged). -/
theorem c9_payload_too_large (h : Blob → Digest) (maxSize : Nat) (s : Store)
    (b : Blob) (hover : maxSize < b.length) :
    casStore h maxSize s b = (s, Except.error CasError.PayloadTooLarge) := by
  simp [casStore, hover]

/-- Witness for C9 with maximum size 1 and a two-byte blob. -/
theorem c9_witness :
    casStore (fun b => b) 1 [] [0, 0] =
      ([], Except.error CasError.PayloadTooLarge) :=
  c9_payload_too_large (fun b => b) 1 [] [0, 0] (by decide)

/-- Claim C10: on a response that passes raise_for_status, get_file writes
exactly the bytes of the response body, in order and in full, into a file
opened in truncating mode, consumes the body in chunks of at most 8192
bytes, and returns no value. -/
theorem c10_get_file_writes (resp : FileResponse)
    (hok : raise_for_status resp.status = Except.ok ()) :
    get_file resp = Except.ok (resp.body, ()) ∧
    ∀ c ∈ iter_content 8192 resp.body, c.length ≤ 8192 := by
  constructor
  · simp [get_file, hok, iter_content_foldl]
  · exact iter_content_length_le (by decide) resp.body

/-- Witness for C10 at a 200 response with a three-byte body. -/
theorem c10_witness :
    get_file ⟨200, [1, 2, 3]⟩ = Except.ok ([1, 2, 3], ()) ∧
    ∀ c ∈ iter_content 8192 [1, 2, 3], c.length ≤ 8192 :=
  c10_get_file_writes ⟨200, [1, 2, 3]⟩ rfl

/-- Claim C6 counterexample: a 304 response is not 2xx, yet store_file
returns a value instead of surfacing an error, because raise_for_status
only raises for statuses 400 to 599. -/
theorem c6_counterexample :
    (304 < 200 ∨ 299 < 304) ∧ store_file ⟨304, "abc"⟩ = Except.ok "abc" :=
  ⟨Or.inr (by decide), rfl⟩

/-- Claim C6 amended: every client operation surfaces each 4xx or 5xx
response (status 400 to 599) as a raised error, and hence returns a value
only when the status lies outside that range. -/
theorem c6_amended (status : Nat) (sha1 json : String) (flag : Bool)
    (body : List Nat) (h4 : 400 ≤ status) (h6 : status < 600) :
    store_file ⟨status, sha1⟩ = Except.error (ClientError.httpError status) ∧
    get_file ⟨status, body⟩ = Except.error (ClientError.httpError status) ∧
    delete_file ⟨status, json⟩ = Except.error (ClientError.httpError status) ∧
    file_exists ⟨status, flag⟩ = Except.error (ClientError.httpError status) := by
  have hr : raise_for_status status = Except.error (ClientError.httpError status) := by
    simp [raise_for_status, h4, h6]
  refine ⟨?_, ?_, ?_, ?_⟩ <;>
    simp [store_file, get_file, delete_file, file_exists, hr]

/-- Witness for the amended C6 at status 404. -/
theorem c6_witness :
    store_file ⟨404, "x"⟩ = Except.error (ClientError.httpError 404) ∧
    get_file ⟨404, []⟩ = Except.error (ClientError.httpError 404) ∧
    delete_file ⟨404, "x"⟩ = Except.error (ClientError.httpError 404) ∧
    file_exists ⟨404, true⟩ = Except.error (ClientError.httpError 404) :=
  c6_amended 404 "x" "x" true [] (by decide) (by decide)

theorem findEntry_mem {s : Store} {d : Digest} {b : Blob}
    (hf : findEntry s d = some b) : (d, b) ∈ s := by
  induction s with
  | nil => simp [findEntry] at hf
  | cons p rest ih =>
    obtain ⟨d0, b0⟩ := p
    rw [findEntry] at hf
    by_cases hd : d0 = d
    · subst hd
      rw [if_pos rfl] at hf
      obtain rfl := Option.some.inj hf
      exact List.mem_cons_self _ _
    · simp only [hd, if_false] at hf
      exact List.mem_cons_of_mem _ (ih hf)

/-- Claim C1: storing bytes b and then fetching under the digest of b
returns exactly b, and any bytes a fetch returns re-hash to the digest they
were fetched under. The digest function is assumed collision-free
(injective), the idealization the spec makes of the cryptographic hash, and
the store is assumed hash-consistent, the round-trip invariant the spec
imposes on states. -/
theorem c1_roundtrip (h : Blob → Digest) (maxSize : Nat) (s : Store) (b : Blob)
    (hinj : Function.Injective h) (hcons : HashConsistent h s)
    (hb : b.length ≤ maxSize) :
    (casFetch h (casStore h maxSize s b).1 (h b)).2 = Except.ok b ∧
    (∀ t : Store, ∀ d : Digest, ∀ r : Blob,
      (casFetch h t d).2 = Except.ok r → h r = d) := by
  have hnlt : ¬ maxSize < b.length := Nat.not_lt.mpr hb
  constructor
  · rcases hfe : findEntry s (h b) with _ | b0
    · have hstore : (casStore h maxSize s b).1 = (h b, b) :: s := by
        simp [casStore, hnlt, hfe]
      rw [hstore]
      simp [casFetch, findEntry_cons_self]
    · have hb0 : b0 = b := hinj (hcons (h b, b0) (findEntry_mem hfe))
      have hstore : (casStore h maxSize s b).1 = s := by
        simp [casStore, hnlt, hfe]
      rw [hstore]
      simp [casFetch, hfe, hb0]
  · intro t d r hr
    rcases hfe : findEntry t d with _ | b0
    · simp [casFetch, hfe] at hr
    · by_cases hh : h b0 = d
      · simp [casFetch, hfe, hh] at hr
        exact hr ▸ hh
      · simp [casFetch, hfe, hh] at hr

/-- Witness for C1 with the identity digest on the empty store. -/
theorem c1_witness :
    (casFetch (fun x => x) (casStore (fun x => x) 4 [] [1, 2]).1 [1, 2]).2 =
      Except.ok [1, 2] :=
  (c1_roundtrip (fun x => x) 4 [] [1, 2] (by intro a1 a2 ha; exact ha)
    (by simp [HashConsistent]) (by decide)).1

/-- Claim C2: storing the same bytes twice returns the same digest both
times, the second store leaves the state of the first untouched (no
rewrite), and the final store holds exactly one entry for that digest. -/
theorem c2_store_dedup (h : Blob → Digest) (maxSize : Nat) (s : Store)
    (b : Blob) (hwf : StoreWf s) (hb : b.length ≤ maxSize) :
    (casStore h maxSize s b).2 = Except.ok (h b) ∧
    (casStore h maxSize (casStore h maxSize s b).1 b).2 = Except.ok (h b) ∧
    (casStore h maxSize (casStore h maxSize s b).1 b).1 =
      (casStore h maxSize s b).1 ∧
    countEntries (casStore h maxSize (casStore h maxSize s b).1 b).1 (h b) = 1 := by
  have hnlt : ¬ maxSize < b.length := Nat.not_lt.mpr hb
  rcases hfe : findEntry s (h b) with _ | b0
  · have h1 : casStore h maxSize s b = ((h b, b) :: s, Except.ok (h b)) := by
      simp [casStore, hnlt, hfe]
    have h2 : casStore h maxSize ((h b, b) :: s) b =
        ((h b, b) :: s, Except.ok (h b)) := by
      simp [casStore, hnlt, findEntry_cons_self]
    refine ⟨by simp [h1], ?_, ?_, ?_⟩
    · rw [h1]; simp [h2]
    · rw [h1]; simp [h2]
    · rw [h1]
      simp only [h2]
      simp [countEntries, countEntries_of_none hfe]
  · have hs : (findEntry s (h b)).isSome = true := by simp [hfe]
    have h1 : casStore h maxSize s b = (s, Except.ok (h b)) := by
      simp [casStore, hnlt, hs]
    refine ⟨by simp [h1], ?_, ?_, ?_⟩
    · rw [h1]; simp [h1]
    · rw [h1]; simp [h1]
    · rw [h1]
      simp only [h1]
      exact Nat.le_antisymm (hwf (h b)) (one_le_countEntries hs)

/-- Witness for C2 with the identity digest on the empty store. -/
theorem c2_witness :
    (casStore (fun x => x) 4 [] [1, 2]).2 = Except.ok [1, 2] ∧
    (casStore (fun x => x) 4 (casStore (fun x => x) 4 [] [1, 2]).1 [1, 2]).2 =
      Except.ok [1, 2] ∧
    (casStore (fun x => x) 4 (casStore (fun x => x) 4 [] [1, 2]).1 [1, 2]).1 =
      (casStore (fun x => x) 4 [] [1, 2]).1 ∧
    countEntries
      (casStore (fun x => x) 4 (casStore (fun x => x) 4 [] [1, 2]).1 [1, 2]).1
      [1, 2] = 1 :=
  c2_store_dedup (fun x => x) 4 [] [1, 2] (fun d => Nat.zero_le 1) (by decide)

theorem storeMany_saturated (h : Blob → Digest) (maxSize : Nat) (b : Blob)
    (hb : ¬ maxSize < b.length) :
    ∀ n : Nat, ∀ s : Store, (findEntry s (h b)).isSome = true →
      storeMany h maxSize b n s = (s, List.replicate n (Except.ok (h b))) := by
  intro n
  induction n with
  | zero => intro s hs; rfl
  | succ k ih =>
    intro s hs
    have h1 : casStore h maxSize s b = (s, Except.ok (h b)) := by
      simp [casStore, hb, hs]
    simp [storeMany, h1, ih s hs, List.replicate_succ]

/-- Claim C5: N store calls with identical bytes, linearized into a
sequence as the atomicity requirement of the spec allows, all return the
same digest, and the final store holds exactly one entry for that digest. -/
theorem c5_concurrent_stores (h : Blob → Digest) (maxSize : Nat) (s : Store)
    (b : Blob) (n : Nat) (hwf : StoreWf s) (hb : b.length ≤ maxSize)
    (hn : 1 ≤ n) :
    (storeMany h maxSize b n s).2 = List.replicate n (Except.ok (h b)) ∧
    countEntries (storeMany h maxSize b n s).1 (h b) = 1 := by
  have hnlt : ¬ maxSize < b.length := Nat.not_lt.mpr hb
  obtain ⟨k, rfl⟩ : ∃ k, n = k + 1 := ⟨n - 1, by omega⟩
  rcases hfe : findEntry s (h b) with _ | b0
  · have h1 : casStore h maxSize s b = ((h b, b) :: s, Except.ok (h b)) := by
      simp [casStore, hnlt, hfe]
    have hsat : (findEntry ((h b, b) :: s) (h b)).isSome = true := by
      simp [findEntry_cons_self]
    have h2 := storeMany_saturated h maxSize b hnlt k ((h b, b) :: s) hsat
    constructor
    · simp [storeMany, h1, h2, List.replicate_succ]
    · simp [storeMany, h1, h2, countEntries, countEntries_of_none hfe]
  · have hs : (findEntry s (h b)).isSome = true := by simp [hfe]
    have h1 : casStore h maxSize s b = (s, Except.ok (h b)) := by
      simp [casStore, hnlt, hs]
    have h2 := storeMany_saturated h maxSize b hnlt k s hs
    constructor
    · simp [storeMany, h1, h2, List.replicate_succ]
    · simp only [storeMany, h1, h2]
      exact Nat.le_antisymm (hwf (h b)) (one_le_countEntries hs)

/-- Witness for C5 with three stores of the same blob on the empty store. -/
theorem c5_witness :
    (storeMany (fun x => x) 4 [1] 3 []).2 =
      List.replicate 3 (Except.ok [1]) ∧
    countEntries (storeMany (fun x => x) 4 [1] 3 []).1 [1] = 1 :=
  c5_concurrent_stores (fun x => x) 4 [] [1] 3 (fun d => Nat.zero_le 1)
    (by decide) (by decide)
